import Mathlib

set_option maxRecDepth 8000

/-!
Verification development for the resilient ingestion fetcher of the
chi-311-quality repository (src/fetch.py).

The embedding models `fetch_api` and its helpers over an abstract remote
source.  External-library behaviour is embedded as follows:

* `requests.get` / HTTP: the remote is a function `Request → RemoteResp`;
  a non-success status is the `err` constructor carrying status and body.
  `r.raise_for_status()` outside `_try_page` raises `requests.HTTPError`,
  whose message carries the status code and the request URL (but not the
  response body); this is `FetchErr.httpError`.  URL encoding of query
  parameters is abstracted by `reqUrl`.
* `pandas.DataFrame(rows)`: a rectangular table whose columns are the union
  of the record keys and whose missing cells are NaN (`CellVal.nan`);
  this is `padRecord` / `pagePad`.
* `pandas.to_datetime(col, errors="coerce", utc=True)`: element-wise parse
  by a parameter `p : String → Option Int` (timestamps as integers, `none`
  is NaT); a coerced column always has datetime64 dtype, so the source's
  `page_df[c].dtype.kind == 'M'` test holds exactly for the candidate
  columns present in the page.  Cross-frame padding done by `pd.concat`
  is abstracted: the result set is the plain concatenation of the kept
  frames' rows.
* `datetime.now(...) - timedelta(days=days_back)` and `strftime`: the cutoff
  instant `sinceDt : Int` and its rendering `sinceStr : String` are passed
  as parameters (computed once per fetch, as in the source).
-/

/-- One raw field value as received from the remote source (JSON scalars
abstracted as strings). -/
abbrev RawVal := String

/-- A record as returned by the remote source: field name to raw value. -/
abbrev RawRecord := List (String × RawVal)

/-- A cell of a DataFrame: a raw value as received, a NaN introduced by
rectangular padding, or a parsed timestamp column entry (NaT is `none`). -/
inductive CellVal where
  | raw (s : String)
  | nan
  | tstamp (t : Option Int)
deriving DecidableEq, Repr

/-- A row of a DataFrame. -/
abbrev Record := List (String × CellVal)

/-- A query to the Socrata endpoint; fields mirror the `params` dict of each
`requests.get` call in src/fetch.py (`none` = parameter not sent). -/
structure Request where
  whereExpr : Option String := none
  limit : Option Nat := none
  offset : Option Nat := none
  orderExpr : Option String := none
deriving DecidableEq, Repr

/-- The remote source's answer to one request. -/
inductive RemoteResp where
  | ok (rows : List RawRecord)
  | err (status : Nat) (body : String)
deriving DecidableEq, Repr

/-- The remote source: deterministic within one fetch (a frozen snapshot). -/
abbrev Remote := Request → RemoteResp

/-- A fatal error of the fetch: `sysExit msg` is `sys.exit(msg)` /
`SystemExit(msg)`, `httpError` is an uncaught `requests.HTTPError`
(its message carries the status code and the URL, not the body). -/
inductive FetchErr where
  | sysExit (msg : String)
  | httpError (status : Nat) (url : String)
deriving DecidableEq, Repr

/-- Why the fallback blind pager stopped scanning. -/
inductive StopReason where
  | exhausted
  | heuristic
  | cap
  | transport
deriving DecidableEq, Repr

/-- src/fetch.py line 10. -/
def API_URL : String := "https://data.cityofchicago.org/resource/v6vf-nfxy.json"

/-- src/fetch.py lines 13-22. -/
def DATE_FIELD_CANDIDATES : List String :=
  ["requested_datetime", "last_modified_date", "closed_date", "created_date",
   "creation_date", "open_date", "sr_created_date", "date_created"]

/-- Rendering of a request as a URL (encoding abstracted). -/
def reqUrl (q : Request) : String :=
  API_URL ++ "?" ++ String.intercalate "&"
    ((match q.whereExpr with | some w => ["$where=" ++ w] | none => []) ++
     (match q.limit with | some n => ["$limit=" ++ toString n] | none => []) ++
     (match q.offset with | some n => ["$offset=" ++ toString n] | none => []) ++
     (match q.orderExpr with | some o => ["$order=" ++ o] | none => []))

/-- Does `pat` occur as a contiguous substring of `s` (Python's `in`)? -/
def listIsPre : List Char → List Char → Bool
  | [], _ => true
  | _ :: _, [] => false
  | c :: cs, d :: ds => c = d && listIsPre cs ds

/-- Substring search on character lists. -/
def listHasSub (pat : List Char) : List Char → Bool
  | [] => listIsPre pat []
  | c :: cs => listIsPre pat (c :: cs) || listHasSub pat cs

/-- Substring test on strings (Python's `pat in s`). -/
def strHasSub (s pat : String) : Bool :=
  listHasSub pat.toList s.toList

/-- src/fetch.py line 110: classification of a probe failure as a type
mismatch, by substring search over the error message. -/
def typeMismatchMsg (msg : String) : Bool :=
  strHasSub msg "type-mismatch" || strHasSub msg "Type mismatch" || strHasSub msg "op$>="

/-- Insertion into a sorted list of strings (for Python's `sorted`). -/
def insertSorted (x : String) : List String → List String
  | [] => [x]
  | y :: ys => if x < y then x :: y :: ys else y :: insertSorted x ys

/-- Python's `sorted` on a list of strings. -/
def sortStr (l : List String) : List String :=
  l.foldr insertSorted []

/-- Python's `repr` of a list of strings. -/
def pyListRepr (l : List String) : String :=
  "[" ++ String.intercalate ", " (l.map (fun s => "'" ++ s ++ "'")) ++ "]"

/-- src/fetch.py line 80: the fatal message when the explicit override is
absent from the observed schema. -/
def createdFieldMsg (f : String) (cols : List String) : String :=
  "--created-field '" ++ f ++ "' not found in dataset columns: " ++ pyListRepr (sortStr cols)

/-- src/fetch.py lines 85-89: the fatal message when auto-discovery finds no
usable date column. -/
def noDateColMsg (cols : List String) : String :=
  "No suitable date column found. Checked: " ++ String.intercalate ", " DATE_FIELD_CANDIDATES
    ++ ". Dataset columns: " ++ pyListRepr (sortStr cols)

/-- Python's `s[:800]`: the first 800 characters of a string. -/
def strTrunc (s : String) (n : Nat) : String :=
  (s.toList.take n).asString

/-- src/fetch.py lines 38-42: the SystemExit message `_try_page` raises on a
non-success status (body truncated to 800 characters). -/
def httpExitMsg (status : Nat) (url body : String) : String :=
  "HTTP " ++ toString status ++ " from Socrata.\n" ++ "URL: " ++ url ++ "\n"
    ++ "Message: " ++ strTrunc body 800

/-- The schema probe request, src/fetch.py line 26: `params={"$limit": 1}`. -/
def sampleReq : Request :=
  { whereExpr := none, limit := some 1, offset := none, orderExpr := none }

/-- A negotiation probe request, src/fetch.py line 33. -/
def probeReq (whereExpr orderCol : String) (chunk : Nat) : Request :=
  { whereExpr := some whereExpr, limit := some chunk, offset := some 0,
    orderExpr := some orderCol }

/-- A server-filtered pagination request, src/fetch.py line 133. -/
def svReq (whereExpr orderCol : String) (chunk offset : Nat) : Request :=
  { whereExpr := some whereExpr, limit := some chunk, offset := some offset,
    orderExpr := some orderCol }

/-- A fallback (blind) pagination request, src/fetch.py lines 49-51. -/
def fbReq (orderCol : Option String) (chunk offset : Nat) : Request :=
  { whereExpr := none, limit := some chunk, offset := some offset,
    orderExpr := orderCol }

/-- src/fetch.py line 103 (and, applied to the cast column, line 112):
the raw range filter `dc >= 'since_str'`. -/
def rawWhere (dc sinceStr : String) : String :=
  dc ++ " >= '" ++ sinceStr ++ "'"

/-- src/fetch.py line 112: the cast form of a candidate column. -/
def castCol (dc : String) : String :=
  dc ++ "::floating_timestamp"

/-- Raw-value lookup in a received record (first occurrence of the key). -/
def lookupRaw (r : RawRecord) (k : String) : Option RawVal :=
  (r.find? (fun kv => kv.1 == k)).map (fun kv => kv.2)

/-- Cell lookup in a DataFrame row (first occurrence of the key). -/
def lookupCell (r : Record) (k : String) : Option CellVal :=
  (r.find? (fun kv => kv.1 == k)).map (fun kv => kv.2)

/-- The column set of `pd.DataFrame(rows)`: union of all record keys. -/
def unionKeys (pg : List RawRecord) : List String :=
  ((pg.map (fun r => r.map Prod.fst)).flatten).dedup

/-- One received record as a rectangular DataFrame row over `cols`:
present keys keep their raw value, absent keys become NaN. -/
def padRecord (cols : List String) (r : RawRecord) : Record :=
  cols.map (fun k => (k, match lookupRaw r k with
    | some v => CellVal.raw v
    | none => CellVal.nan))

/-- `pd.DataFrame(pg)` as a list of rectangular rows. -/
def pagePad (pg : List RawRecord) : List Record :=
  pg.map (padRecord (unionKeys pg))

/-- `pd.to_datetime(cell, errors="coerce", utc=True)` element-wise: raw
values parse to `p v` and NaN padding parses to NaT. -/
def parseCell (p : String → Option Int) : CellVal → CellVal
  | CellVal.raw s => CellVal.tstamp (p s)
  | CellVal.nan => CellVal.tstamp none
  | CellVal.tstamp t => CellVal.tstamp t

/-- src/fetch.py lines 164-167: parse every candidate date column of a row. -/
def parseRec (p : String → Option Int) (dateCols : List String) (r : Record) : Record :=
  r.map (fun kv => if kv.1 ∈ dateCols then (kv.1, parseCell p kv.2) else kv)

/-- src/fetch.py lines 173-177: a row counts as "newer" when some candidate
column holds a parsed timestamp at or after the cutoff (NaT never matches). -/
def recNewer (sinceDt : Int) (dateCols : List String) (r : Record) : Bool :=
  dateCols.any (fun c => match lookupCell r c with
    | some (CellVal.tstamp (some t)) => sinceDt ≤ t
    | _ => false)

/-- src/fetch.py lines 24-29: fetch one row to learn which columns exist
(`r.json() or [{}]`, then the first record's keys). -/
def _sample_columns (remote : Remote) : Except FetchErr (List String) :=
  match remote sampleReq with
  | RemoteResp.err s _ => Except.error (FetchErr.httpError s (reqUrl sampleReq))
  | RemoteResp.ok rows => Except.ok ((rows.headD []).map Prod.fst)

/-- src/fetch.py lines 31-43: attempt a single probe page; on a non-success
status the result is the SystemExit message with status, URL and truncated
body.  Also returns the request issued. -/
def _try_page (remote : Remote) (whereExpr orderCol : String) (chunk : Nat) :
    Request × Except String (List RawRecord) :=
  let q := probeReq whereExpr orderCol chunk
  (q, match remote q with
      | RemoteResp.ok rows => Except.ok rows
      | RemoteResp.err s b => Except.error (httpExitMsg s (reqUrl q) b))

/-- One candidate's negotiation attempt, as observed behaviour: whether the
raw probe failed (and with which message), whether the cast probe was
attempted and how it ended. -/
structure Attempt where
  cand : String
  rawErr : Option String
  castTried : Bool
  castErr : Option String
deriving DecidableEq, Repr

/-- The date-filter negotiator's outcome: requests issued, per-candidate
trace, and the working (filter, order, first page) triple if any. -/
structure NegOut where
  log : List Request
  trace : List Attempt
  found : Option (String × String × List RawRecord)
deriving Repr

/-- src/fetch.py lines 100-120: per candidate, try the raw comparison; on a
failure whose message indicates a type mismatch, retry with the cast
comparison; otherwise (and when both forms fail) move to the next
candidate. -/
def negotiate (remote : Remote) (sinceStr : String) (chunk : Nat) : List String → NegOut
  | [] => { log := [], trace := [], found := none }
  | dc :: rest =>
    let w := rawWhere dc sinceStr
    match _try_page remote w dc (min 5 chunk) with
    | (q1, Except.ok rows) =>
      { log := [q1],
        trace := [{ cand := dc, rawErr := none, castTried := false, castErr := none }],
        found := some (w, dc, rows) }
    | (q1, Except.error msg) =>
      if typeMismatchMsg msg then
        let cw := rawWhere (castCol dc) sinceStr
        match _try_page remote cw (castCol dc) (min 5 chunk) with
        | (q2, Except.ok rows2) =>
          { log := [q1, q2],
            trace := [{ cand := dc, rawErr := some msg, castTried := true, castErr := none }],
            found := some (cw, castCol dc, rows2) }
        | (q2, Except.error msg2) =>
          let n := negotiate remote sinceStr chunk rest
          { log := q1 :: q2 :: n.log,
            trace := { cand := dc, rawErr := some msg, castTried := true,
                       castErr := some msg2 } :: n.trace,
            found := n.found }
      else
        let n := negotiate remote sinceStr chunk rest
        { log := q1 :: n.log,
          trace := { cand := dc, rawErr := some msg, castTried := false,
                     castErr := none } :: n.trace,
          found := n.found }

/-- The server-filtered pager's outcome.  `received` is every page the loop
got back (including a final empty one); `frames` are the pages appended to
the accumulation (src/fetch.py line 139), i.e. the non-empty ones. -/
structure SvOut where
  wWhere : String
  wOrder : String
  probe : List RawRecord
  log : List Request
  received : List (List RawRecord)
  frames : List (List RawRecord)
  result : Except FetchErr Unit
deriving Repr

/-- src/fetch.py lines 131-142: the server-filtered pagination loop.  The
fuel argument only bounds the recursion depth of the model (the Python
loop is unbounded); `none` means the fuel ran out before the loop did. -/
def server_scan (remote : Remote) (wW wO : String) (chunk : Nat) (probe : List RawRecord) :
    Nat → Nat → List (List RawRecord) → List (List RawRecord) → List Request → Option SvOut
  | 0, _, _, _, _ => none
  | Nat.succ fuel, offset, received, frames, log =>
    let q := svReq wW wO chunk offset
    match remote q with
    | RemoteResp.err s _ =>
      some { wWhere := wW, wOrder := wO, probe := probe, log := log ++ [q],
             received := received, frames := frames,
             result := Except.error (FetchErr.httpError s (reqUrl q)) }
    | RemoteResp.ok rows =>
      if rows = [] then
        some { wWhere := wW, wOrder := wO, probe := probe, log := log ++ [q],
               received := received ++ [rows], frames := frames,
               result := Except.ok () }
      else if rows.length < chunk then
        some { wWhere := wW, wOrder := wO, probe := probe, log := log ++ [q],
               received := received ++ [rows], frames := frames ++ [rows],
               result := Except.ok () }
      else
        server_scan remote wW wO chunk probe fuel (offset + rows.length)
          (received ++ [rows]) (frames ++ [rows]) (log ++ [q])

/-- src/fetch.py lines 122-145: the Server-Filtered Pager, starting from the
probe page (`start_offset = len(first_rows)`). -/
def serverPager (remote : Remote) (wW wO : String) (chunk : Nat)
    (firstRows : List RawRecord) (fuel : Nat) : Option SvOut :=
  server_scan remote wW wO chunk firstRows fuel firstRows.length [] [] []

/-- The rows the server-filtered mode returns: concatenation of the probe
frame and the appended loop frames, each rectangular (`pd.concat`'s
cross-frame padding abstracted). -/
def svRows (s : SvOut) : List Record :=
  pagePad s.probe ++ (s.frames.map pagePad).flatten

/-- The fallback blind pager's outcome. -/
structure FbOut where
  log : List Request
  scanned : List (List RawRecord)
  pages : Nat
  kept : List (List Record)
  stop : StopReason
  result : Except FetchErr (List Record)
deriving Repr

/-- src/fetch.py lines 160-167: `pd.DataFrame(rows)` with every candidate
date column parsed (`page_df[c] = pd.to_datetime(page_df[c], ...)`). -/
def fbParsed (p : String → Option Int) (dateCols : List String)
    (rows : List RawRecord) : List Record :=
  rows.map (fun r => parseRec p dateCols (padRecord (unionKeys rows) r))

/-- src/fetch.py lines 163-171: did any row of the page have a parsed
timestamp at or after the cutoff in any candidate column? -/
def fbAnyNewer (p : String → Option Int) (sinceDt : Int) (dateCols : List String)
    (rows : List RawRecord) : Bool :=
  (fbParsed p dateCols rows).any (recNewer sinceDt dateCols)

/-- src/fetch.py lines 173-183: the rows of the page that are kept.  The
mask exists exactly when some candidate column is present in the page
(a parsed column always has datetime dtype); with no mask the whole page
is kept. -/
def fbKeptPage (p : String → Option Int) (sinceDt : Int) (dateCols : List String)
    (rows : List RawRecord) : List Record :=
  if ∃ c ∈ dateCols, c ∈ unionKeys rows then
    (fbParsed p dateCols rows).filter (recNewer sinceDt dateCols)
  else
    fbParsed p dateCols rows

/-- src/fetch.py lines 185-186: append the page's kept rows when non-empty. -/
def fbKept2 (p : String → Option Int) (sinceDt : Int) (dateCols : List String)
    (rows : List RawRecord) (kept : List (List Record)) : List (List Record) :=
  if fbKeptPage p sinceDt dateCols rows = [] then kept
  else kept ++ [fbKeptPage p sinceDt dateCols rows]

/-- src/fetch.py lines 45-60 and 155-198: the fallback blind pagination loop
(`_page_iter_no_where` fused with its consumer in `fetch_api`).  Per page:
parse every candidate date column, keep the rows newer in any candidate
column — or the whole page when no candidate column is present (then every
mask source is missing and `mask_newer is None`) — then stop on the
early-stop heuristic, the page cap, or a short/empty page.  The fuel only
bounds the model's recursion; `maxPages.toNat + 1` always suffices. -/
def fallback_scan (remote : Remote) (p : String → Option Int) (sinceDt : Int)
    (dateCols : List String) (orderCol : Option String) (chunk : Nat) (maxPages : Int) :
    Nat → Nat → Nat → List (List Record) → List Request → List (List RawRecord) → Option FbOut
  | 0, _, _, _, _, _ => none
  | Nat.succ fuel, offset, ps, kept, log, scanned =>
    let q := fbReq orderCol chunk offset
    match remote q with
    | RemoteResp.err s _ =>
      some { log := log ++ [q], scanned := scanned, pages := ps, kept := kept,
             stop := StopReason.transport,
             result := Except.error (FetchErr.httpError s (reqUrl q)) }
    | RemoteResp.ok rows =>
      if rows = [] then
        some { log := log ++ [q], scanned := scanned, pages := ps, kept := kept,
               stop := StopReason.exhausted, result := Except.ok kept.flatten }
      else
        let kept2 := fbKept2 p sinceDt dateCols rows kept
        if fbAnyNewer p sinceDt dateCols rows = false ∧ kept2 ≠ [] then
          some { log := log ++ [q], scanned := scanned ++ [rows], pages := ps + 1,
                 kept := kept2, stop := StopReason.heuristic,
                 result := Except.ok kept2.flatten }
        else if maxPages ≤ ((ps + 1 : Nat) : Int) then
          some { log := log ++ [q], scanned := scanned ++ [rows], pages := ps + 1,
                 kept := kept2, stop := StopReason.cap,
                 result := Except.ok kept2.flatten }
        else if rows.length < chunk then
          some { log := log ++ [q], scanned := scanned ++ [rows], pages := ps + 1,
                 kept := kept2, stop := StopReason.exhausted,
                 result := Except.ok kept2.flatten }
        else
          fallback_scan remote p sinceDt dateCols orderCol chunk maxPages fuel
            (offset + rows.length) (ps + 1) kept2 (log ++ [q]) (scanned ++ [rows])

/-- The Fallback Blind Pager, started as `fetch_api` does. -/
def fallbackPager (remote : Remote) (p : String → Option Int) (sinceDt : Int)
    (dateCols : List String) (orderCol : Option String) (chunk : Nat) (maxPages : Int) :
    Option FbOut :=
  fallback_scan remote p sinceDt dateCols orderCol chunk maxPages
    (maxPages.toNat + 1) 0 0 [] [] []

/-- The observable outcome of one `fetch_api` call: every request issued, the
observed schema, the candidate list used, the negotiation trace, the pager
outcome of whichever mode ran, and the overall result. -/
structure FetchOut where
  log : List Request
  cols : List String
  dateCols : List String
  attempts : List Attempt
  sv : Option SvOut
  fb : Option FbOut
  result : Except FetchErr (List Record)
deriving Repr

/-- The body of `fetch_api` after the candidate list is fixed: negotiate,
then page server-side on success or blind-page on exhaustion. -/
def fetchCore (remote : Remote) (p : String → Option Int) (sinceDt : Int) (sinceStr : String)
    (chunk : Nat) (maxPages : Int) (fuel : Nat) (cols : List String) (dct : List String) :
    Option FetchOut :=
  let n := negotiate remote sinceStr chunk dct
  match n.found with
  | some (wW, wO, firstRows) =>
    match serverPager remote wW wO chunk firstRows fuel with
    | none => none
    | some sv =>
      some { log := sampleReq :: (n.log ++ sv.log), cols := cols, dateCols := dct,
             attempts := n.trace, sv := some sv, fb := none,
             result := match sv.result with
               | Except.ok _ => Except.ok (svRows sv)
               | Except.error e => Except.error e }
  | none =>
    let orderCol := dct.find? (fun dc => decide (dc ∈ cols))
    match fallbackPager remote p sinceDt dct orderCol chunk maxPages with
    | none => none
    | some fb =>
      some { log := sampleReq :: (n.log ++ fb.log), cols := cols, dateCols := dct,
             attempts := n.trace, sv := none, fb := some fb, result := fb.result }

/-- src/fetch.py lines 62-198: `fetch_api`.  `sinceDt`/`sinceStr` are the
cutoff instant and its ISO rendering (computed once, lines 92-93);
`created_field` is the optional override; `fuel` bounds the model's
server-side pagination depth only. -/
def fetch_api (remote : Remote) (p : String → Option Int) (sinceDt : Int) (sinceStr : String)
    (chunk : Nat) (created_field : Option String) (maxPages : Int) (fuel : Nat) :
    Option FetchOut :=
  match _sample_columns remote with
  | Except.error e =>
    some { log := [sampleReq], cols := [], dateCols := [], attempts := [],
           sv := none, fb := none, result := Except.error e }
  | Except.ok cols =>
    match created_field with
    | some f =>
      if f ∈ cols then
        fetchCore remote p sinceDt sinceStr chunk maxPages fuel cols [f]
      else
        some { log := [sampleReq], cols := cols, dateCols := [], attempts := [],
               sv := none, fb := none,
               result := Except.error (FetchErr.sysExit (createdFieldMsg f cols)) }
    | none =>
      let dct := DATE_FIELD_CANDIDATES.filter (fun c => decide (c ∈ cols))
      if dct.isEmpty then
        some { log := [sampleReq], cols := cols, dateCols := [], attempts := [],
               sv := none, fb := none,
               result := Except.error (FetchErr.sysExit (noDateColMsg cols)) }
      else
        fetchCore remote p sinceDt sinceStr chunk maxPages fuel cols dct

/-! ### Concrete remotes for evaluation -/

/-- Value of a digit string. -/
def digitsVal (cs : List Char) : Nat :=
  cs.foldl (fun n c => n * 10 + (c.toNat - 48)) 0

/-- Small concrete date parser for concrete runs: non-empty digit strings
parse as integers, anything else is unparseable (stands in for
`pd.to_datetime`). -/
def demoParse (s : String) : Option Int :=
  match s.toList with
  | [] => none
  | cs => if cs.all Char.isDigit then some (digitsVal cs) else none

/-- A remote whose only record has an unparseable date in the sole candidate
column present, and whose probes all fail with a non-type-mismatch error. -/
def demoC1 : Remote := fun q =>
  match q.whereExpr with
  | some _ => RemoteResp.err 400 "no such column"
  | none =>
    match q.offset with
    | none => RemoteResp.ok [[("created_date", "bad")]]
    | some 0 => RemoteResp.ok [[("created_date", "bad")]]
    | some _ => RemoteResp.ok []

/-- Invariant of every record kept by the fallback pager: it is the parsed,
rectangular image of a received record of some scanned page, and it was
either newer in some candidate column or came from a page with no candidate
column at all (then all its candidate lookups are empty). -/
def KeptRec (p : String → Option Int) (sinceDt : Int) (dateCols : List String)
    (scanned : List (List RawRecord)) (r : Record) : Prop :=
  (recNewer sinceDt dateCols r = true ∨ ∀ c ∈ dateCols, lookupCell r c = none) ∧
  ∃ pg, pg ∈ scanned ∧ ∃ rr, rr ∈ pg ∧ r = parseRec p dateCols (padRecord (unionKeys pg) rr)

/-- A remote for which all probes fail (with a non-type-mismatch error) and
the only page has an unparseable value in its sole candidate column. -/
def demoC2 : Remote := fun q =>
  match q.whereExpr with
  | some _ => RemoteResp.err 400 "no such column"
  | none =>
    match q.offset with
    | none => RemoteResp.ok [[("created_date", "150"), ("id", "7")]]
    | some 0 => RemoteResp.ok [[("created_date", "150"), ("id", "7")], [("created_date", "50")]]
    | some _ => RemoteResp.ok []

/-- A remote used only for its schema probe (the override test needs no
further request). -/
def demoC3 : Remote := fun _ =>
  RemoteResp.ok [[("a", "1")]]

/-- A remote whose raw probe on `requested_datetime` succeeds: server mode,
a probe page of two rows, one further full page, then a short page. -/
def demoC4 : Remote := fun q =>
  match q.whereExpr, q.offset with
  | none, none => RemoteResp.ok [[("requested_datetime", "150")]]
  | some _, some 0 =>
    RemoteResp.ok [[("requested_datetime", "150")], [("requested_datetime", "140")]]
  | some _, some 2 => RemoteResp.ok [[("requested_datetime", "130")]]
  | _, _ => RemoteResp.ok []

/-- A remote with one fresh fallback page, for exercising the page cap. -/
def demoC5 : Remote := fun q =>
  match q.whereExpr with
  | some _ => RemoteResp.err 400 "no such column"
  | none =>
    match q.offset with
    | none => RemoteResp.ok [[("created_date", "150")]]
    | some 0 => RemoteResp.ok [[("created_date", "150")]]
    | some _ => RemoteResp.ok []

/-- A remote that fails every request: the schema probe sees HTTP 503. -/
def demoC6a : Remote := fun _ =>
  RemoteResp.err 503 "oops"

/-- A remote whose fallback pagination fails with HTTP 500 on its second
page request. -/
def demoC6b : Remote := fun q =>
  match q.whereExpr with
  | some _ => RemoteResp.err 400 "no such column"
  | none =>
    match q.offset with
    | none => RemoteResp.ok [[("created_date", "150")]]
    | some 0 =>
      RemoteResp.ok [[("created_date", "150")], [("created_date", "149")]]
    | some _ => RemoteResp.err 500 "bad gateway"

/-- A remote whose server-filtered pagination fails with HTTP 502 on its
first loop request. -/
def demoC6c : Remote := fun q =>
  match q.whereExpr, q.offset with
  | none, none => RemoteResp.ok [[("requested_datetime", "150")]]
  | some _, some 0 =>
    RemoteResp.ok [[("requested_datetime", "150")], [("requested_datetime", "140")]]
  | some _, some _ => RemoteResp.err 502 "bad upstream"
  | _, _ => RemoteResp.ok []

/-- A remote whose probes fail with a non-success status, yet whose fallback
pagination succeeds: the whole fetch succeeds despite the failed probes. -/
def demoC6 : Remote := fun q =>
  match q.whereExpr with
  | some _ => RemoteResp.err 400 "boom"
  | none =>
    match q.offset with
    | none => RemoteResp.ok [[("created_date", "150")]]
    | some 0 => RemoteResp.ok [[("created_date", "150")]]
    | some _ => RemoteResp.ok []

/-- A remote whose raw probes fail with a type-mismatch body and whose cast
probes fail with an unrelated error; fallback pages are empty. -/
def demoC7 : Remote := fun q =>
  match q.whereExpr with
  | some _ =>
    match q.orderExpr with
    | some o =>
      if strHasSub o "::floating_timestamp" then RemoteResp.err 400 "still bad"
      else RemoteResp.err 400 "comparison type-mismatch on text column"
    | none => RemoteResp.err 400 "no order"
  | none =>
    match q.offset with
    | none => RemoteResp.ok [[("created_date", "x")]]
    | some _ => RemoteResp.ok []

/-- A remote that answers every request with zero records. -/
def demoC8 : Remote := fun _ =>
  RemoteResp.ok []

/-- A remote whose first fallback page is fresh and full, and whose second
page has no candidate date column at all. -/
def demoC9 : Remote := fun q =>
  match q.whereExpr with
  | some _ => RemoteResp.err 400 "no such column"
  | none =>
    match q.offset with
    | none => RemoteResp.ok [[("created_date", "150")]]
    | some 0 =>
      RemoteResp.ok [[("created_date", "150")], [("created_date", "140")]]
    | some 2 => RemoteResp.ok [[("other", "z")]]
    | some _ => RemoteResp.ok []

/-- The offsets at which a sequence of received pages was requested,
starting from `base`: each request advances by the previous page's length. -/
def svOffsets (base : Nat) : List (List RawRecord) → List Nat
  | [] => []
  | pg :: rest => base :: svOffsets (base + pg.length) rest

/-! ### Basic lemmas about padding, parsing and lookups -/

theorem keys_padRecord {cols : List String} {r : RawRecord} {kv : String × CellVal}
    (h : kv ∈ padRecord cols r) : kv.1 ∈ cols := by
  simp only [padRecord, List.mem_map] at h
  obtain ⟨k, hk, rfl⟩ := h
  exact hk

theorem lookupCell_padRecord_of_mem {cols : List String} {r : RawRecord} {k : String}
    (h : k ∈ cols) :
    lookupCell (padRecord cols r) k =
      some (match lookupRaw r k with
            | some v => CellVal.raw v
            | none => CellVal.nan) := by
  induction cols with
  | nil => cases h
  | cons c cs ih =>
    by_cases hc : c = k
    · subst hc
      simp [padRecord, lookupCell, List.find?_cons_of_pos]
    · have hk : k ∈ cs := by
        cases List.mem_cons.mp h with
        | inl h1 => exact absurd h1.symm hc
        | inr h2 => exact h2
      have step : lookupCell (padRecord (c :: cs) r) k = lookupCell (padRecord cs r) k := by
        simp only [padRecord, List.map_cons, lookupCell]
        rw [List.find?_cons_of_neg]
        simp [hc]
      rw [step]
      exact ih hk

theorem lookupCell_padRecord_of_not_mem {cols : List String} {r : RawRecord} {k : String}
    (h : k ∉ cols) : lookupCell (padRecord cols r) k = none := by
  have hf : List.find? (fun kv => kv.1 == k) (padRecord cols r) = none := by
    rw [List.find?_eq_none]
    intro kv hkv
    simp only [beq_iff_eq]
    intro heq
    exact h (heq ▸ keys_padRecord hkv)
  simp [lookupCell, hf]

theorem lookupCell_parseRec (p : String → Option Int) (dateCols : List String)
    (r : Record) (k : String) :
    lookupCell (parseRec p dateCols r) k =
      (lookupCell r k).map (fun cv => if k ∈ dateCols then parseCell p cv else cv) := by
  induction r with
  | nil => rfl
  | cons kv r ih =>
    by_cases hk : kv.1 = k
    · subst hk
      by_cases hd : kv.1 ∈ dateCols
      · simp [parseRec, lookupCell, List.find?_cons_of_pos, hd]
      · simp [parseRec, lookupCell, List.find?_cons_of_pos, hd]
    · have hb : (kv.1 == k) = false := by simp [hk]
      by_cases hd : kv.1 ∈ dateCols
      · simp only [parseRec, List.map_cons, if_pos hd, lookupCell] at *
        rw [List.find?_cons_of_neg, List.find?_cons_of_neg]
        · exact ih
        · simp [hk]
        · simp [hk]
      · simp only [parseRec, List.map_cons, if_neg hd, lookupCell] at *
        rw [List.find?_cons_of_neg, List.find?_cons_of_neg]
        · exact ih
        · simp [hk]
        · simp [hk]

theorem recNewer_eq_false_of_none {sinceDt : Int} {dateCols : List String} {r : Record}
    (h : ∀ c ∈ dateCols, lookupCell r c = none) :
    recNewer sinceDt dateCols r = false := by
  simp only [recNewer, List.any_eq_false]
  intro c hc
  rw [h c hc]
  simp

theorem parseRec_eq_self {p : String → Option Int} {dateCols : List String} {r : Record}
    (h : ∀ kv ∈ r, kv.1 ∉ dateCols) : parseRec p dateCols r = r := by
  induction r with
  | nil => rfl
  | cons kv r ih =>
    simp only [parseRec, List.map_cons]
    rw [if_neg (h kv (List.mem_cons_self kv r))]
    have := ih (fun kv2 h2 => h kv2 (List.mem_cons_of_mem kv h2))
    simp only [parseRec] at this
    rw [this]

theorem mem_unionKeys_of_mem {pg : List RawRecord} {r : RawRecord} {k : String} {v : RawVal}
    (hr : r ∈ pg) (hkv : (k, v) ∈ r) : k ∈ unionKeys pg := by
  simp only [unionKeys, List.mem_dedup, List.mem_flatten, List.mem_map]
  exact ⟨r.map Prod.fst, ⟨r, hr, rfl⟩, List.mem_map.mpr ⟨(k, v), hkv, rfl⟩⟩

theorem lookupRaw_lookupCell_padRecord {cols : List String} {r : RawRecord} {k : String}
    {v : RawVal} (hk : k ∈ cols) (h : lookupRaw r k = some v) :
    lookupCell (padRecord cols r) k = some (CellVal.raw v) := by
  rw [lookupCell_padRecord_of_mem hk, h]

/-! ### Invariants of the fallback blind pagination loop -/

theorem fallback_scan_pages (R : Remote) (p : String → Option Int) (sd : Int)
    (dc : List String) (oc : Option String) (ck : Nat) (mp : Int) :
    ∀ fuel offset ps kept log scanned out,
      fallback_scan R p sd dc oc ck mp fuel offset ps kept log scanned = some out →
      (out.pages : Int) ≤ max mp (ps + 1) ∧ ps ≤ out.pages := by
  intro fuel
  induction fuel with
  | zero =>
    intro _ _ _ _ _ _ h
    simp [fallback_scan] at h
  | succ fuel ih =>
    intro offset ps kept log scanned out h
    simp only [fallback_scan] at h
    cases hq : R (fbReq oc ck offset) with
    | err s b =>
      rw [hq] at h
      dsimp only at h
      cases h
      have h1 := le_max_right mp ((ps : Int) + 1)
      exact ⟨by dsimp only; omega, by dsimp only; omega⟩
    | ok rows =>
      rw [hq] at h
      dsimp only at h
      by_cases hre : rows = []
      · rw [if_pos hre] at h
        cases h
        have h1 := le_max_right mp ((ps : Int) + 1)
        exact ⟨by dsimp only; omega, by dsimp only; omega⟩
      · rw [if_neg hre] at h
        by_cases hheu : fbAnyNewer p sd dc rows = false ∧ fbKept2 p sd dc rows kept ≠ []
        · rw [if_pos hheu] at h
          cases h
          have h1 := le_max_right mp ((ps : Int) + 1)
          exact ⟨by dsimp only; omega, by dsimp only; omega⟩
        · rw [if_neg hheu] at h
          by_cases hcap : mp ≤ ((ps + 1 : Nat) : Int)
          · rw [if_pos hcap] at h
            cases h
            have h1 := le_max_right mp ((ps : Int) + 1)
            exact ⟨by dsimp only; omega, by dsimp only; omega⟩
          · rw [if_neg hcap] at h
            by_cases hshort : rows.length < ck
            · rw [if_pos hshort] at h
              cases h
              have h1 := le_max_right mp ((ps : Int) + 1)
              exact ⟨by dsimp only; omega, by dsimp only; omega⟩
            · rw [if_neg hshort] at h
              obtain ⟨hr1, hr2⟩ := ih _ _ _ _ _ _ h
              have h1 : mp ⊔ (((ps + 1 : Nat) : Int) + 1) ≤ mp := max_le le_rfl (by omega)
              have h2 := le_max_left mp ((ps : Int) + 1)
              exact ⟨by omega, by omega⟩

theorem mem_fbParsed {p : String → Option Int} {dc : List String}
    {rows : List RawRecord} {r : Record} (h : r ∈ fbParsed p dc rows) :
    ∃ rr, rr ∈ rows ∧ r = parseRec p dc (padRecord (unionKeys rows) rr) := by
  simp only [fbParsed, List.mem_map] at h
  obtain ⟨rr, hrr, rfl⟩ := h
  exact ⟨rr, hrr, rfl⟩

theorem lookupCell_fbParsed_none {p : String → Option Int} {dc : List String}
    {rows : List RawRecord} {r : Record} {c : String}
    (hr : r ∈ fbParsed p dc rows) (hc : c ∉ unionKeys rows) :
    lookupCell r c = none := by
  obtain ⟨rr, _, rfl⟩ := mem_fbParsed hr
  rw [lookupCell_parseRec, lookupCell_padRecord_of_not_mem hc]
  rfl

theorem fbAnyNewer_eq_false {p : String → Option Int} {sd : Int} {dc : List String}
    {rows : List RawRecord} (h : ∀ c ∈ dc, c ∉ unionKeys rows) :
    fbAnyNewer p sd dc rows = false := by
  simp only [fbAnyNewer, List.any_eq_false]
  intro r hr
  have : recNewer sd dc r = false :=
    recNewer_eq_false_of_none (fun c hc => lookupCell_fbParsed_none hr (h c hc))
  simp [this]

theorem fbKeptPage_conservative (p : String → Option Int) (sd : Int) {dc : List String}
    {rows : List RawRecord} (h : ∀ c ∈ dc, c ∉ unionKeys rows) :
    fbKeptPage p sd dc rows = pagePad rows := by
  rw [fbKeptPage, if_neg]
  · unfold fbParsed pagePad
    apply List.map_congr_left
    intro rr _
    apply parseRec_eq_self
    intro kv hkv hkvdc
    exact h kv.1 hkvdc (keys_padRecord hkv)
  · rintro ⟨c, hc1, hc2⟩
    exact h c hc1 hc2

theorem keptPage_rec_prop {p : String → Option Int} {sd : Int} {dc : List String}
    {rows : List RawRecord} {r : Record} (h : r ∈ fbKeptPage p sd dc rows) :
    (recNewer sd dc r = true ∨ ∀ c ∈ dc, lookupCell r c = none) ∧
    ∃ rr, rr ∈ rows ∧ r = parseRec p dc (padRecord (unionKeys rows) rr) := by
  by_cases hmask : ∃ c ∈ dc, c ∈ unionKeys rows
  · rw [fbKeptPage, if_pos hmask] at h
    have h2 := List.mem_filter.mp h
    exact ⟨Or.inl h2.2, mem_fbParsed h2.1⟩
  · rw [fbKeptPage, if_neg hmask] at h
    push_neg at hmask
    refine ⟨Or.inr (fun c hc => lookupCell_fbParsed_none h (hmask c hc)), mem_fbParsed h⟩

theorem KeptRec_mono {p : String → Option Int} {sd : Int} {dc : List String}
    {S : List (List RawRecord)} (ext : List (List RawRecord)) {r : Record}
    (h : KeptRec p sd dc S r) : KeptRec p sd dc (S ++ ext) r := by
  obtain ⟨h1, pg, hpg, hrest⟩ := h
  exact ⟨h1, pg, List.mem_append.mpr (Or.inl hpg), hrest⟩

theorem fbKept2_rec_prop {p : String → Option Int} {sd : Int} {dc : List String}
    {rows : List RawRecord} {kept : List (List Record)}
    {scanned : List (List RawRecord)}
    (hkept : ∀ fr ∈ kept, ∀ r ∈ fr, KeptRec p sd dc scanned r) :
    ∀ fr ∈ fbKept2 p sd dc rows kept, ∀ r ∈ fr,
      KeptRec p sd dc (scanned ++ [rows]) r := by
  intro fr hfr r hr
  rw [fbKept2] at hfr
  split at hfr
  · exact KeptRec_mono [rows] (hkept fr hfr r hr)
  · cases List.mem_append.mp hfr with
    | inl h1 => exact KeptRec_mono [rows] (hkept fr h1 r hr)
    | inr h2 =>
      have : fr = fbKeptPage p sd dc rows := by simpa using h2
      subst this
      obtain ⟨hprop, rr, hrr, heq⟩ := keptPage_rec_prop hr
      exact ⟨hprop, rows, List.mem_append.mpr (Or.inr (by simp)), rr, hrr, heq⟩

theorem fallback_scan_kept (R : Remote) (p : String → Option Int) (sd : Int)
    (dc : List String) (oc : Option String) (ck : Nat) (mp : Int) :
    ∀ fuel offset ps kept log scanned out,
      fallback_scan R p sd dc oc ck mp fuel offset ps kept log scanned = some out →
      (∀ fr ∈ kept, ∀ r ∈ fr, KeptRec p sd dc scanned r) →
      (∀ fr ∈ out.kept, ∀ r ∈ fr, KeptRec p sd dc out.scanned r) ∧
      (∀ rows2, out.result = Except.ok rows2 → rows2 = out.kept.flatten) := by
  intro fuel
  induction fuel with
  | zero =>
    intro _ _ _ _ _ _ h
    simp [fallback_scan] at h
  | succ fuel ih =>
    intro offset ps kept log scanned out h hkept
    simp only [fallback_scan] at h
    cases hq : R (fbReq oc ck offset) with
    | err s b =>
      rw [hq] at h
      dsimp only at h
      cases h
      refine ⟨hkept, ?_⟩
      intro rows2 hr2
      cases hr2
    | ok rows =>
      rw [hq] at h
      dsimp only at h
      by_cases hre : rows = []
      · rw [if_pos hre] at h
        cases h
        exact ⟨hkept, fun rows2 hr2 => by cases hr2; rfl⟩
      · rw [if_neg hre] at h
        by_cases hheu : fbAnyNewer p sd dc rows = false ∧ fbKept2 p sd dc rows kept ≠ []
        · rw [if_pos hheu] at h
          cases h
          exact ⟨fbKept2_rec_prop hkept, fun rows2 hr2 => by cases hr2; rfl⟩
        · rw [if_neg hheu] at h
          by_cases hcap : mp ≤ ((ps + 1 : Nat) : Int)
          · rw [if_pos hcap] at h
            cases h
            exact ⟨fbKept2_rec_prop hkept, fun rows2 hr2 => by cases hr2; rfl⟩
          · rw [if_neg hcap] at h
            by_cases hshort : rows.length < ck
            · rw [if_pos hshort] at h
              cases h
              exact ⟨fbKept2_rec_prop hkept, fun rows2 hr2 => by cases hr2; rfl⟩
            · rw [if_neg hshort] at h
              exact ih _ _ _ _ _ _ h (fbKept2_rec_prop hkept)

theorem fallback_scan_conservative (R : Remote) (p : String → Option Int) (sd : Int)
    (dc : List String) (oc : Option String) (ck : Nat) (mp : Int) :
    ∀ fuel offset ps kept log scanned out pg,
      fallback_scan R p sd dc oc ck mp fuel offset ps kept log scanned = some out →
      pg ∉ scanned → pg ∈ out.scanned →
      (∀ c ∈ dc, c ∉ unionKeys pg) →
      out.scanned.getLast? = some pg ∧ out.stop = StopReason.heuristic ∧
      ∃ rows2, out.result = Except.ok rows2 ∧ List.Sublist (pagePad pg) rows2 := by
  intro fuel
  induction fuel with
  | zero =>
    intro _ _ _ _ _ _ _ h
    simp [fallback_scan] at h
  | succ fuel ih =>
    intro offset ps kept log scanned out pg h hnotin hmem hcons
    simp only [fallback_scan] at h
    cases hq : R (fbReq oc ck offset) with
    | err s b =>
      rw [hq] at h
      dsimp only at h
      cases h
      exact absurd hmem hnotin
    | ok rows =>
      rw [hq] at h
      dsimp only at h
      by_cases hre : rows = []
      · rw [if_pos hre] at h
        cases h
        exact absurd hmem hnotin
      · rw [if_neg hre] at h
        by_cases hcr : ∀ c ∈ dc, c ∉ unionKeys rows
        · have hpadne : fbKeptPage p sd dc rows ≠ [] := by
            rw [fbKeptPage_conservative p sd hcr]
            simp [pagePad, hre]
          have hk2 : fbKept2 p sd dc rows kept = kept ++ [fbKeptPage p sd dc rows] := by
            rw [fbKept2, if_neg hpadne]
          have hheu : fbAnyNewer p sd dc rows = false ∧ fbKept2 p sd dc rows kept ≠ [] := by
            refine ⟨fbAnyNewer_eq_false hcr, ?_⟩
            rw [hk2]
            simp
          rw [if_pos hheu] at h
          cases h
          have hpg : pg = rows := by
            cases List.mem_append.mp hmem with
            | inl h1 => exact absurd h1 hnotin
            | inr h2 => simpa using h2
          subst hpg
          refine ⟨List.getLast?_concat _, rfl, _, rfl, ?_⟩
          rw [← fbKeptPage_conservative p sd hcr]
          apply List.sublist_flatten_of_mem
          rw [hk2]
          simp
        · push_neg at hcr
          obtain ⟨c0, hc0dc, hc0in⟩ := hcr
          have hpgrows : pg ≠ rows := by
            intro heq
            exact hcons c0 hc0dc (heq ▸ hc0in)
          have hnotin2 : pg ∉ scanned ++ [rows] := by
            intro hmem2
            cases List.mem_append.mp hmem2 with
            | inl h1 => exact hnotin h1
            | inr h2 => exact hpgrows (by simpa using h2)
          by_cases hheu : fbAnyNewer p sd dc rows = false ∧ fbKept2 p sd dc rows kept ≠ []
          · rw [if_pos hheu] at h
            cases h
            exact absurd hmem hnotin2
          · rw [if_neg hheu] at h
            by_cases hcap : mp ≤ ((ps + 1 : Nat) : Int)
            · rw [if_pos hcap] at h
              cases h
              exact absurd hmem hnotin2
            · rw [if_neg hcap] at h
              by_cases hshort : rows.length < ck
              · rw [if_pos hshort] at h
                cases h
                exact absurd hmem hnotin2
              · rw [if_neg hshort] at h
                exact ih _ _ _ _ _ _ _ h hnotin2 hmem hcons

theorem fallback_scan_err (R : Remote) (p : String → Option Int) (sd : Int)
    (dc : List String) (oc : Option String) (ck : Nat) (mp : Int) :
    ∀ fuel offset ps kept log scanned out e,
      fallback_scan R p sd dc oc ck mp fuel offset ps kept log scanned = some out →
      (∀ r ∈ log, ∃ rs, R r = RemoteResp.ok rs) →
      out.result = Except.error e →
      ∃ q s b, out.log.getLast? = some q ∧ R q = RemoteResp.err s b ∧
        e = FetchErr.httpError s (reqUrl q) ∧
        (∀ r ∈ out.log.dropLast, ∃ rs, R r = RemoteResp.ok rs) := by
  intro fuel
  induction fuel with
  | zero =>
    intro _ _ _ _ _ _ _ h
    simp [fallback_scan] at h
  | succ fuel ih =>
    intro offset ps kept log scanned out e h hlog hres
    simp only [fallback_scan] at h
    cases hq : R (fbReq oc ck offset) with
    | err s b =>
      rw [hq] at h
      dsimp only at h
      cases h
      dsimp only at hres
      cases hres
      refine ⟨fbReq oc ck offset, s, b, ?_, hq, rfl, ?_⟩
      · exact List.getLast?_concat _
      · rw [List.dropLast_concat]
        exact hlog
    | ok rows =>
      rw [hq] at h
      dsimp only at h
      have hlog2 : ∀ r ∈ log ++ [fbReq oc ck offset], ∃ rs, R r = RemoteResp.ok rs := by
        intro r hr
        cases List.mem_append.mp hr with
        | inl h1 => exact hlog r h1
        | inr h2 =>
          have : r = fbReq oc ck offset := by simpa using h2
          exact ⟨rows, this ▸ hq⟩
      by_cases hre : rows = []
      · rw [if_pos hre] at h
        cases h
        cases hres
      · rw [if_neg hre] at h
        by_cases hheu : fbAnyNewer p sd dc rows = false ∧ fbKept2 p sd dc rows kept ≠ []
        · rw [if_pos hheu] at h
          cases h
          cases hres
        · rw [if_neg hheu] at h
          by_cases hcap : mp ≤ ((ps + 1 : Nat) : Int)
          · rw [if_pos hcap] at h
            cases h
            cases hres
          · rw [if_neg hcap] at h
            by_cases hshort : rows.length < ck
            · rw [if_pos hshort] at h
              cases h
              cases hres
            · rw [if_neg hshort] at h
              exact ih _ _ _ _ _ _ _ h hlog2 hres

theorem getLast?_cons_ne {α : Type} {l : List α} (a : α) (h : l ≠ []) :
    (a :: l).getLast? = l.getLast? := by
  cases l with
  | nil => exact absurd rfl h
  | cons b t => rfl

theorem dropLast_cons_ne {α : Type} {l : List α} (a : α) (h : l ≠ []) :
    (a :: l).dropLast = a :: l.dropLast := by
  cases l with
  | nil => exact absurd rfl h
  | cons b t => rfl

theorem server_scan_ok (R : Remote) (wW wO : String) (ck : Nat) (probe : List RawRecord)
    (hck : 0 < ck) :
    ∀ fuel offset received frames log out,
      server_scan R wW wO ck probe fuel offset received frames log = some out →
      out.result = Except.ok () →
      ∃ ext extF,
        out.received = received ++ ext ∧
        out.frames = frames ++ extF ∧
        extF.flatten = ext.flatten ∧
        out.log = log ++ (svOffsets offset ext).map (fun off => svReq wW wO ck off) ∧
        ext ≠ [] ∧
        (∀ pg ∈ ext.dropLast, ck ≤ pg.length) ∧
        (∃ lastPg, ext.getLast? = some lastPg ∧ lastPg.length < ck) ∧
        out.probe = probe ∧ out.wWhere = wW ∧ out.wOrder = wO := by
  intro fuel
  induction fuel with
  | zero =>
    intro _ _ _ _ _ h
    simp [server_scan] at h
  | succ fuel ih =>
    intro offset received frames log out h hres
    simp only [server_scan] at h
    cases hq : R (svReq wW wO ck offset) with
    | err s b =>
      rw [hq] at h
      dsimp only at h
      cases h
      cases hres
    | ok rows =>
      rw [hq] at h
      dsimp only at h
      by_cases hre : rows = []
      · rw [if_pos hre] at h
        cases h
        refine ⟨[rows], [], rfl, by simp, by simp [hre], ?_, by simp, ?_, ?_, rfl, rfl, rfl⟩
        · simp [svOffsets]
        · intro pg hpg
          simp [List.dropLast] at hpg
        · exact ⟨rows, by simp, by simp [hre, hck]⟩
      · rw [if_neg hre] at h
        by_cases hshort : rows.length < ck
        · rw [if_pos hshort] at h
          cases h
          refine ⟨[rows], [rows], rfl, rfl, rfl, ?_, by simp, ?_, ?_, rfl, rfl, rfl⟩
          · simp [svOffsets]
          · intro pg hpg
            simp [List.dropLast] at hpg
          · exact ⟨rows, by simp, hshort⟩
        · rw [if_neg hshort] at h
          obtain ⟨ext, extF, h1, h2, h3, h4, h5, h6, h7, h8, h9, h10⟩ := ih _ _ _ _ _ h hres
          refine ⟨rows :: ext, rows :: extF, ?_, ?_, ?_, ?_, by simp, ?_, ?_, h8, h9, h10⟩
          · rw [h1]
            simp
          · rw [h2]
            simp
          · simp only [List.flatten_cons, h3]
          · rw [h4, svOffsets]
            simp
          · intro pg hpg
            rw [dropLast_cons_ne _ h5] at hpg
            cases List.mem_cons.mp hpg with
            | inl heq => subst heq; omega
            | inr hmem => exact h6 pg hmem
          · obtain ⟨lastPg, hl1, hl2⟩ := h7
            exact ⟨lastPg, by rw [getLast?_cons_ne _ h5]; exact hl1, hl2⟩

theorem server_scan_err (R : Remote) (wW wO : String) (ck : Nat) (probe : List RawRecord) :
    ∀ fuel offset received frames log out e,
      server_scan R wW wO ck probe fuel offset received frames log = some out →
      (∀ r ∈ log, ∃ rs, R r = RemoteResp.ok rs) →
      out.result = Except.error e →
      ∃ q s b, out.log.getLast? = some q ∧ R q = RemoteResp.err s b ∧
        e = FetchErr.httpError s (reqUrl q) ∧
        (∀ r ∈ out.log.dropLast, ∃ rs, R r = RemoteResp.ok rs) := by
  intro fuel
  induction fuel with
  | zero =>
    intro _ _ _ _ _ _ h
    simp [server_scan] at h
  | succ fuel ih =>
    intro offset received frames log out e h hlog hres
    simp only [server_scan] at h
    cases hq : R (svReq wW wO ck offset) with
    | err s b =>
      rw [hq] at h
      dsimp only at h
      cases h
      dsimp only at hres
      cases hres
      refine ⟨svReq wW wO ck offset, s, b, List.getLast?_concat _, hq, rfl, ?_⟩
      rw [List.dropLast_concat]
      exact hlog
    | ok rows =>
      rw [hq] at h
      dsimp only at h
      have hlog2 : ∀ r ∈ log ++ [svReq wW wO ck offset], ∃ rs, R r = RemoteResp.ok rs := by
        intro r hr
        cases List.mem_append.mp hr with
        | inl h1 => exact hlog r h1
        | inr h2 =>
          have : r = svReq wW wO ck offset := by simpa using h2
          exact ⟨rows, this ▸ hq⟩
      by_cases hre : rows = []
      · rw [if_pos hre] at h
        cases h
        cases hres
      · rw [if_neg hre] at h
        by_cases hshort : rows.length < ck
        · rw [if_pos hshort] at h
          cases h
          cases hres
        · rw [if_neg hshort] at h
          exact ih _ _ _ _ _ _ h hlog2 hres

theorem server_scan_fields (R : Remote) (wW wO : String) (ck : Nat) (probe : List RawRecord) :
    ∀ fuel offset received frames log out,
      server_scan R wW wO ck probe fuel offset received frames log = some out →
      out.wWhere = wW ∧ out.wOrder = wO ∧ out.probe = probe := by
  intro fuel
  induction fuel with
  | zero =>
    intro _ _ _ _ _ h
    simp [server_scan] at h
  | succ fuel ih =>
    intro offset received frames log out h
    simp only [server_scan] at h
    cases hq : R (svReq wW wO ck offset) with
    | err s b =>
      rw [hq] at h
      dsimp only at h
      cases h
      exact ⟨rfl, rfl, rfl⟩
    | ok rows =>
      rw [hq] at h
      dsimp only at h
      by_cases hre : rows = []
      · rw [if_pos hre] at h
        cases h
        exact ⟨rfl, rfl, rfl⟩
      · rw [if_neg hre] at h
        by_cases hshort : rows.length < ck
        · rw [if_pos hshort] at h
          cases h
          exact ⟨rfl, rfl, rfl⟩
        · rw [if_neg hshort] at h
          exact ih _ _ _ _ _ h

theorem fetchCore_fb_spec (ss : String) {R : Remote} {p : String → Option Int} {sd : Int}
    {ck : Nat} {mp : Int} {fuel : Nat} {cols dct : List String} {out : FetchOut} {f : FbOut} :
    fetchCore R p sd ss ck mp fuel cols dct = some out →
    out.fb = some f →
    fallbackPager R p sd out.dateCols
      (out.dateCols.find? (fun c => decide (c ∈ out.cols))) ck mp = some f ∧
    out.result = f.result ∧ out.sv = none ∧ out.cols = cols ∧ out.dateCols = dct ∧
    (negotiate R ss ck dct).found = none := by
  simp only [fetchCore]
  cases hn : (negotiate R ss ck dct).found with
  | some tri =>
    obtain ⟨wW, wO, fr⟩ := tri
    dsimp only
    cases hsv : serverPager R wW wO ck fr fuel with
    | none =>
      intro h
      cases h
    | some sv =>
      dsimp only
      intro h hfb
      cases h
      cases hfb
  | none =>
    dsimp only
    cases hfb2 : fallbackPager R p sd dct (dct.find? (fun c => decide (c ∈ cols))) ck mp with
    | none =>
      intro h
      cases h
    | some fb =>
      dsimp only
      intro h hfb
      cases h
      dsimp only at hfb
      cases hfb
      exact ⟨hfb2, rfl, rfl, rfl, rfl, rfl⟩

theorem fetchCore_sv_spec (ss : String) {R : Remote} {p : String → Option Int} {sd : Int}
    {ck : Nat} {mp : Int} {fuel : Nat} {cols dct : List String} {out : FetchOut} {s : SvOut} :
    fetchCore R p sd ss ck mp fuel cols dct = some out →
    out.sv = some s →
    serverPager R s.wWhere s.wOrder ck s.probe fuel = some s ∧
    out.result = (match s.result with
                  | Except.ok _ => Except.ok (svRows s)
                  | Except.error e => Except.error e) ∧
    out.fb = none ∧ out.cols = cols ∧ out.dateCols = dct ∧
    (negotiate R ss ck dct).found = some (s.wWhere, s.wOrder, s.probe) := by
  simp only [fetchCore]
  cases hn : (negotiate R ss ck dct).found with
  | some tri =>
    obtain ⟨wW, wO, fr⟩ := tri
    dsimp only
    cases hsv : serverPager R wW wO ck fr fuel with
    | none =>
      intro h
      cases h
    | some sv =>
      dsimp only
      intro h hsv2
      cases h
      dsimp only at hsv2
      cases hsv2
      obtain ⟨hw, ho, hp⟩ := server_scan_fields R wW wO ck fr _ _ _ _ _ _ hsv
      rw [hw, ho, hp]
      exact ⟨hsv, rfl, rfl, rfl, rfl, rfl⟩
  | none =>
    dsimp only
    cases hfb2 : fallbackPager R p sd dct (dct.find? (fun c => decide (c ∈ cols))) ck mp with
    | none =>
      intro h
      cases h
    | some fb =>
      dsimp only
      intro h hsv2
      cases h
      cases hsv2

theorem fetch_fb_spec {R : Remote} {p : String → Option Int} {sd : Int} {ss : String}
    {ck : Nat} {cf : Option String} {mp : Int} {fuel : Nat} {out : FetchOut} {f : FbOut} :
    fetch_api R p sd ss ck cf mp fuel = some out →
    out.fb = some f →
    fallbackPager R p sd out.dateCols
      (out.dateCols.find? (fun c => decide (c ∈ out.cols))) ck mp = some f ∧
    out.result = f.result ∧ out.sv = none := by
  simp only [fetch_api]
  cases hs : _sample_columns R with
  | error e =>
    dsimp only
    intro h hfb
    cases h
    cases hfb
  | ok cols =>
    dsimp only
    cases cf with
    | some fcol =>
      dsimp only
      by_cases hf : fcol ∈ cols
      · rw [if_pos hf]
        intro h hfb
        obtain ⟨h1, h2, h3, _, _, _⟩ := fetchCore_fb_spec ss h hfb
        exact ⟨h1, h2, h3⟩
      · rw [if_neg hf]
        intro h hfb
        cases h
        cases hfb
    | none =>
      dsimp only
      by_cases hd : (DATE_FIELD_CANDIDATES.filter (fun c => decide (c ∈ cols))).isEmpty
      · rw [if_pos hd]
        intro h hfb
        cases h
        cases hfb
      · rw [if_neg hd]
        intro h hfb
        obtain ⟨h1, h2, h3, _, _, _⟩ := fetchCore_fb_spec ss h hfb
        exact ⟨h1, h2, h3⟩

theorem fetch_sv_spec {R : Remote} {p : String → Option Int} {sd : Int} {ss : String}
    {ck : Nat} {cf : Option String} {mp : Int} {fuel : Nat} {out : FetchOut} {s : SvOut} :
    fetch_api R p sd ss ck cf mp fuel = some out →
    out.sv = some s →
    serverPager R s.wWhere s.wOrder ck s.probe fuel = some s ∧
    out.result = (match s.result with
                  | Except.ok _ => Except.ok (svRows s)
                  | Except.error e => Except.error e) ∧
    out.fb = none := by
  simp only [fetch_api]
  cases hs : _sample_columns R with
  | error e =>
    dsimp only
    intro h hsv
    cases h
    cases hsv
  | ok cols =>
    dsimp only
    cases cf with
    | some fcol =>
      dsimp only
      by_cases hf : fcol ∈ cols
      · rw [if_pos hf]
        intro h hsv
        obtain ⟨h1, h2, h3, _, _, _⟩ := fetchCore_sv_spec ss h hsv
        exact ⟨h1, h2, h3⟩
      · rw [if_neg hf]
        intro h hsv
        cases h
        cases hsv
    | none =>
      dsimp only
      by_cases hd : (DATE_FIELD_CANDIDATES.filter (fun c => decide (c ∈ cols))).isEmpty
      · rw [if_pos hd]
        intro h hsv
        cases h
        cases hsv
      · rw [if_neg hd]
        intro h hsv
        obtain ⟨h1, h2, h3, _, _, _⟩ := fetchCore_sv_spec ss h hsv
        exact ⟨h1, h2, h3⟩

theorem negotiate_trace (R : Remote) (ss : String) (ck : Nat) :
    ∀ cands,
      (∀ a ∈ (negotiate R ss ck cands).trace,
         (a.castTried = true ↔ ∃ m, a.rawErr = some m ∧ typeMismatchMsg m = true)) ∧
      ((negotiate R ss ck cands).found = none →
         (negotiate R ss ck cands).trace.map (fun a => a.cand) = cands) := by
  intro cands
  induction cands with
  | nil =>
    constructor
    · intro a ha
      simp [negotiate] at ha
    · intro _
      rfl
  | cons dc rest ih =>
    simp only [negotiate, _try_page]
    cases hq : R (probeReq (rawWhere dc ss) dc (min 5 ck)) with
    | ok rows =>
      dsimp only
      constructor
      · intro a ha
        have : a = { cand := dc, rawErr := none, castTried := false, castErr := none } := by
          simpa using ha
        subst this
        simp
      · intro hfound
        cases hfound
    | err s b =>
      dsimp only
      by_cases htm : typeMismatchMsg (httpExitMsg s (reqUrl (probeReq (rawWhere dc ss) dc (min 5 ck))) b) = true
      · rw [if_pos htm]
        cases hq2 : R (probeReq (rawWhere (castCol dc) ss) (castCol dc) (min 5 ck)) with
        | ok rows2 =>
          dsimp only
          constructor
          · intro a ha
            have : a = { cand := dc,
                         rawErr := some (httpExitMsg s
                           (reqUrl (probeReq (rawWhere dc ss) dc (min 5 ck))) b),
                         castTried := true, castErr := none } := by
              simpa using ha
            subst this
            simp only [true_iff]
            exact ⟨_, rfl, htm⟩
          · intro hfound
            cases hfound
        | err s2 b2 =>
          dsimp only
          constructor
          · intro a ha
            cases List.mem_cons.mp ha with
            | inl heq =>
              subst heq
              simp only [true_iff]
              exact ⟨_, rfl, htm⟩
            | inr hmem => exact ih.1 a hmem
          · intro hfound
            simp only [List.map_cons]
            rw [ih.2 hfound]
      · rw [if_neg htm]
        dsimp only
        constructor
        · intro a ha
          cases List.mem_cons.mp ha with
          | inl heq =>
            subst heq
            simp only [Bool.false_eq_true, false_iff]
            rintro ⟨m, hm, htm2⟩
            cases hm
            exact htm htm2
          | inr hmem => exact ih.1 a hmem
        · intro hfound
          simp only [List.map_cons]
          rw [ih.2 hfound]

theorem negotiate_continue (R : Remote) (ss : String) (ck : Nat) (dc : String)
    (rest : List String) (s : Nat) (b : String)
    (hraw : R (probeReq (rawWhere dc ss) dc (min 5 ck)) = RemoteResp.err s b) :
    (typeMismatchMsg (httpExitMsg s (reqUrl (probeReq (rawWhere dc ss) dc (min 5 ck))) b) = false →
       (negotiate R ss ck (dc :: rest)).found = (negotiate R ss ck rest).found) ∧
    (∀ s2 b2, R (probeReq (rawWhere (castCol dc) ss) (castCol dc) (min 5 ck)) = RemoteResp.err s2 b2 →
       (negotiate R ss ck (dc :: rest)).found = (negotiate R ss ck rest).found) := by
  constructor
  · intro htm
    simp only [negotiate, _try_page]
    rw [hraw]
    dsimp only
    rw [if_neg (by simp [htm])]
  · intro s2 b2 hcast
    simp only [negotiate, _try_page]
    rw [hraw]
    dsimp only
    by_cases htm : typeMismatchMsg (httpExitMsg s (reqUrl (probeReq (rawWhere dc ss) dc (min 5 ck))) b) = true
    · rw [if_pos htm, hcast]
    · rw [if_neg htm]

theorem fetch_api_sample_err {R : Remote} {p : String → Option Int} {sd : Int} {ss : String}
    {ck : Nat} {cf : Option String} {mp : Int} {fuel : Nat} {s : Nat} {b : String}
    (h : R sampleReq = RemoteResp.err s b) :
    fetch_api R p sd ss ck cf mp fuel =
      some { log := [sampleReq], cols := [], dateCols := [], attempts := [],
             sv := none, fb := none,
             result := Except.error (FetchErr.httpError s (reqUrl sampleReq)) } := by
  simp only [fetch_api, _sample_columns, h]

theorem fetch_api_override_missing {R : Remote} {p : String → Option Int} {sd : Int}
    {ss : String} {ck : Nat} {mp : Int} {fuel : Nat} {f : String} {srows : List RawRecord}
    (h : R sampleReq = RemoteResp.ok srows)
    (hf : f ∉ (srows.headD []).map Prod.fst) :
    fetch_api R p sd ss ck (some f) mp fuel =
      some { log := [sampleReq], cols := (srows.headD []).map Prod.fst,
             dateCols := [], attempts := [], sv := none, fb := none,
             result := Except.error
               (FetchErr.sysExit (createdFieldMsg f ((srows.headD []).map Prod.fst))) } := by
  simp only [fetch_api, _sample_columns, h]
  rw [if_neg hf]

theorem fetch_api_no_date_col {R : Remote} {p : String → Option Int} {sd : Int}
    {ss : String} {ck : Nat} {mp : Int} {fuel : Nat} {srows : List RawRecord}
    (h : R sampleReq = RemoteResp.ok srows)
    (hd : (DATE_FIELD_CANDIDATES.filter
            (fun c => decide (c ∈ (srows.headD []).map Prod.fst))).isEmpty = true) :
    fetch_api R p sd ss ck none mp fuel =
      some { log := [sampleReq], cols := (srows.headD []).map Prod.fst,
             dateCols := [], attempts := [], sv := none, fb := none,
             result := Except.error
               (FetchErr.sysExit (noDateColMsg ((srows.headD []).map Prod.fst))) } := by
  simp only [fetch_api, _sample_columns, h]
  rw [if_pos hd]

/-! ### The claims -/

/-- C1 (amended): in the Fallback Blind Pager, a scanned page in which no
candidate date column is present at all is conservatively kept in its
entirety in the result set.  (As originally stated — keeping any page whose
rows merely have no parseable date — the claim fails: a page whose candidate
columns are present but wholly unparseable is dropped by the mask filter,
because a coerced column always has datetime dtype; see the
counterexample.) -/
theorem claim_C1 (R : Remote) (p : String → Option Int) (sd : Int) (ss : String)
    (ck : Nat) (cf : Option String) (mp : Int) (fuel : Nat) (out : FetchOut) (f : FbOut)
    (pg : List RawRecord)
    (h : fetch_api R p sd ss ck cf mp fuel = some out)
    (hfb : out.fb = some f)
    (hpg : pg ∈ f.scanned)
    (hcons : ∀ c ∈ out.dateCols, c ∉ unionKeys pg) :
    ∃ rows2, out.result = Except.ok rows2 ∧ List.Sublist (pagePad pg) rows2 := by
  obtain ⟨hpager, hres, _⟩ := fetch_fb_spec h hfb
  simp only [fallbackPager] at hpager
  obtain ⟨_, _, rows2, hok, hsub⟩ :=
    fallback_scan_conservative R p sd out.dateCols _ ck mp _ _ _ _ _ _ _ _
      hpager (by simp) hpg hcons
  exact ⟨rows2, by rw [hres, hok], hsub⟩

/-- Witness for C1 at a concrete remote: the second fallback page has no
candidate date column, and it is kept whole in the returned rows. -/
theorem claim_C1_witness :
    ∃ out f rows2,
      fetch_api demoC9 demoParse 100 "S" 2 none 30 9 = some out ∧
      out.fb = some f ∧
      [[("other", "z")]] ∈ f.scanned ∧
      (∀ c ∈ out.dateCols, c ∉ unionKeys [[("other", "z")]]) ∧
      out.result = Except.ok rows2 ∧
      List.Sublist (pagePad [[("other", "z")]]) rows2 := by
  obtain ⟨rows2, hok, hsub⟩ :=
    claim_C1 demoC9 demoParse 100 "S" 2 none 30 9 _ _ [[("other", "z")]]
      rfl rfl (by decide) (by decide)
  exact ⟨_, _, rows2, rfl, rfl, by decide, by decide, hok, hsub⟩

/-- Counterexample to C1 as frozen: a fallback page whose only candidate
column is present but unparseable in every row is dropped entirely (the
result is empty), not conservatively kept. -/
theorem claim_C1_counterexample :
    demoParse "bad" = none ∧
    (fetch_api demoC1 demoParse 100 "S" 2 none 30 9).map
      (fun o => (o.result, o.fb.map (fun fb => (fb.scanned, fb.kept)))) =
      some (Except.ok [], some ([[[("created_date", "bad")]]], [])) :=
  ⟨rfl, rfl⟩

/-- C2: every record returned by a fetch that used the Fallback Blind Pager
is newer than the cutoff in some candidate date column, unless no candidate
column on that record parsed at all (here: every candidate lookup on the
record is empty, which is exactly the conservative-keep case). -/
theorem claim_C2 (R : Remote) (p : String → Option Int) (sd : Int) (ss : String)
    (ck : Nat) (cf : Option String) (mp : Int) (fuel : Nat) (out : FetchOut) (f : FbOut)
    (rows2 : List Record)
    (h : fetch_api R p sd ss ck cf mp fuel = some out)
    (hfb : out.fb = some f)
    (hres : out.result = Except.ok rows2) :
    ∀ r ∈ rows2, recNewer sd out.dateCols r = true ∨
      ∀ c ∈ out.dateCols, lookupCell r c = none := by
  obtain ⟨hpager, hres2, _⟩ := fetch_fb_spec h hfb
  simp only [fallbackPager] at hpager
  obtain ⟨hkept, hflat⟩ :=
    fallback_scan_kept R p sd out.dateCols _ ck mp _ _ _ _ _ _ _ hpager (by simp)
  intro r hr
  have hrows2 : rows2 = f.kept.flatten := hflat rows2 (by rw [← hres2]; exact hres)
  subst hrows2
  obtain ⟨fr, hfr, hrfr⟩ := List.mem_flatten.mp hr
  exact (hkept fr hfr r hrfr).1

/-- Witness for C2 at a concrete remote with a non-empty fallback result. -/
theorem claim_C2_witness :
    ∃ out f rows2,
      fetch_api demoC2 demoParse 100 "S" 2 none 30 9 = some out ∧
      out.fb = some f ∧
      out.result = Except.ok rows2 ∧
      rows2 ≠ [] ∧
      ∀ r ∈ rows2, recNewer 100 out.dateCols r = true ∨
        ∀ c ∈ out.dateCols, lookupCell r c = none := by
  have hprop := claim_C2 demoC2 demoParse 100 "S" 2 none 30 9 _ _ _ rfl rfl rfl
  exact ⟨_, _, _, rfl, rfl, rfl, by decide, hprop⟩

/-- C5 (amended): the fallback pager scans at most max(maxPages, 1) pages.
The page cap is only checked after a page has been scanned, so a
non-positive configured maximum still scans one page (see counterexample);
for a configured maximum of at least one the bound is exactly maxPages. -/
theorem claim_C5 (R : Remote) (p : String → Option Int) (sd : Int) (ss : String)
    (ck : Nat) (cf : Option String) (mp : Int) (fuel : Nat) (out : FetchOut) (f : FbOut)
    (h : fetch_api R p sd ss ck cf mp fuel = some out)
    (hfb : out.fb = some f) :
    (f.pages : Int) ≤ max mp 1 := by
  obtain ⟨hpager, _, _⟩ := fetch_fb_spec h hfb
  simp only [fallbackPager] at hpager
  have hb := (fallback_scan_pages R p sd out.dateCols _ ck mp _ _ _ _ _ _ _ hpager).1
  have hc : (((0 : Nat) : Int) + 1) = 1 := by norm_num
  rw [hc] at hb
  exact hb

/-- Witness for C5 at a concrete remote. -/
theorem claim_C5_witness :
    ∃ out f,
      fetch_api demoC2 demoParse 100 "S" 2 none 30 9 = some out ∧
      out.fb = some f ∧ (f.pages : Int) ≤ max 30 1 :=
  ⟨_, _, rfl, rfl, claim_C5 demoC2 demoParse 100 "S" 2 none 30 9 _ _ rfl rfl⟩

/-- Counterexample to C5 as frozen: with a configured maximum of 0 pages the
fallback pager still scans one page — more than the configured maximum. -/
theorem claim_C5_counterexample :
    (fetch_api demoC5 demoParse 100 "S" 2 none 0 9).map
      (fun o => o.fb.map (fun fb => fb.pages)) = some (some 1) ∧ (0 : Int) < 1 :=
  ⟨rfl, by decide⟩

/-- C9: a scanned fallback page with no candidate date column at all is the
last page scanned — it is kept in full, counts no row as at-or-after the
cutoff, and the early-stop heuristic fires immediately after it. -/
theorem claim_C9 (R : Remote) (p : String → Option Int) (sd : Int) (ss : String)
    (ck : Nat) (cf : Option String) (mp : Int) (fuel : Nat) (out : FetchOut) (f : FbOut)
    (pg : List RawRecord)
    (h : fetch_api R p sd ss ck cf mp fuel = some out)
    (hfb : out.fb = some f)
    (hpg : pg ∈ f.scanned)
    (hcons : ∀ c ∈ out.dateCols, c ∉ unionKeys pg) :
    f.scanned.getLast? = some pg ∧ f.stop = StopReason.heuristic ∧
    ∃ rows2, out.result = Except.ok rows2 ∧ List.Sublist (pagePad pg) rows2 := by
  obtain ⟨hpager, hres, _⟩ := fetch_fb_spec h hfb
  simp only [fallbackPager] at hpager
  obtain ⟨hlast, hstop, rows2, hok, hsub⟩ :=
    fallback_scan_conservative R p sd out.dateCols _ ck mp _ _ _ _ _ _ _ _
      hpager (by simp) hpg hcons
  exact ⟨hlast, hstop, rows2, by rw [hres, hok], hsub⟩

/-- Witness for C9 at a concrete remote: the candidate-free page is the last
scanned, the stop reason is the heuristic, and the page is kept whole. -/
theorem claim_C9_witness :
    ∃ out f rows2,
      fetch_api demoC9 demoParse 100 "S" 2 none 30 9 = some out ∧
      out.fb = some f ∧
      [[("other", "z")]] ∈ f.scanned ∧
      f.scanned.getLast? = some [[("other", "z")]] ∧
      f.stop = StopReason.heuristic ∧
      out.result = Except.ok rows2 ∧
      List.Sublist (pagePad [[("other", "z")]]) rows2 := by
  obtain ⟨hlast, hstop, rows2, hok, hsub⟩ :=
    claim_C9 demoC9 demoParse 100 "S" 2 none 30 9 _ _ [[("other", "z")]]
      rfl rfl (by decide) (by decide)
  exact ⟨_, _, rows2, rfl, rfl, by decide, hlast, hstop, hok, hsub⟩

theorem mem_of_lookupRaw {rr : RawRecord} {k : String} {v : RawVal}
    (h : lookupRaw rr k = some v) : (k, v) ∈ rr := by
  simp only [lookupRaw] at h
  cases hf : List.find? (fun kv => kv.1 == k) rr with
  | none => rw [hf] at h; cases h
  | some kv =>
    rw [hf] at h
    have hv : kv.2 = v := by simpa using h
    have hk : kv.1 = k := by simpa using List.find?_some hf
    have hmem := List.mem_of_find?_eq_some hf
    have : kv = (k, v) := by
      cases kv
      simp_all
    exact this ▸ hmem

theorem parseCell_tstamp (p : String → Option Int) (cv : CellVal) :
    ∃ t, parseCell p cv = CellVal.tstamp t := by
  cases cv <;> exact ⟨_, rfl⟩

/-- C3: an explicit date-column override absent from the observed schema is
fatal immediately — the fetch's result is the `sys.exit` diagnostic naming
the override and the sorted observed columns, and the only request ever
issued is the schema probe, which carries no filter ($where) at all. -/
theorem claim_C3 (R : Remote) (p : String → Option Int) (sd : Int) (ss : String)
    (ck : Nat) (mp : Int) (fuel : Nat) (f : String) (srows : List RawRecord)
    (h : R sampleReq = RemoteResp.ok srows)
    (hf : f ∉ (srows.headD []).map Prod.fst) :
    fetch_api R p sd ss ck (some f) mp fuel =
      some { log := [sampleReq], cols := (srows.headD []).map Prod.fst,
             dateCols := [], attempts := [], sv := none, fb := none,
             result := Except.error
               (FetchErr.sysExit (createdFieldMsg f ((srows.headD []).map Prod.fst))) } ∧
    sampleReq.whereExpr = none :=
  ⟨fetch_api_override_missing h hf, rfl⟩

/-- Witness for C3: a concrete override missing from a concrete schema. -/
theorem claim_C3_witness :
    ∃ out, fetch_api demoC3 demoParse 100 "S" 2 (some "zzz") 30 9 = some out ∧
      out.log = [sampleReq] ∧
      (∀ q ∈ out.log, q.whereExpr = none) ∧
      out.result = Except.error
        (FetchErr.sysExit (createdFieldMsg "zzz" ["a"])) := by
  have h := claim_C3 demoC3 demoParse 100 "S" 2 30 9 "zzz" [[("a", "1")]] rfl (by decide)
  exact ⟨_, h.1, rfl, by decide, rfl⟩

/-- C8 (amended): when the schema probe succeeds with zero records, the
Schema Prober returns the empty column set (the empty response is handled,
there is no crash on the missing first record), and downstream
column-matching then reports an explicit fatal diagnostic listing the
candidate columns checked and the observed columns.  (As frozen the claim
says the downstream "nothing found" is handled *rather than treated as
fatal*; the code treats it as a clean fatal exit — see the
counterexample.) -/
theorem claim_C8 (R : Remote) (p : String → Option Int) (sd : Int) (ss : String)
    (ck : Nat) (mp : Int) (fuel : Nat)
    (h : R sampleReq = RemoteResp.ok []) :
    _sample_columns R = Except.ok [] ∧
    fetch_api R p sd ss ck none mp fuel =
      some { log := [sampleReq], cols := [], dateCols := [], attempts := [],
             sv := none, fb := none,
             result := Except.error (FetchErr.sysExit (noDateColMsg [])) } := by
  constructor
  · simp [_sample_columns, h]
  · exact fetch_api_no_date_col h (by decide)

/-- Witness for C8 at the zero-record remote. -/
theorem claim_C8_witness :
    ∃ out, _sample_columns demoC8 = Except.ok [] ∧
      fetch_api demoC8 demoParse 100 "S" 2 none 30 9 = some out ∧
      out.result = Except.error (FetchErr.sysExit (noDateColMsg [])) := by
  have h := claim_C8 demoC8 demoParse 100 "S" 2 30 9 rfl
  exact ⟨_, h.1, h.2, rfl⟩

/-- Counterexample to C8 as frozen: on a zero-record remote the fetch
terminates with a fatal error (an explicit diagnostic, but fatal all the
same), refuting "handled rather than treated as fatal". -/
theorem claim_C8_counterexample :
    (fetch_api demoC8 demoParse 100 "S" 2 none 30 9).map (fun o => o.result) =
      some (Except.error (FetchErr.sysExit (noDateColMsg []))) := rfl

/-- C10: in server-filtered mode every returned record is the rectangular
image of a record received from the remote, with every received field value
kept verbatim (`CellVal.raw`, no parsing applied); in fallback mode every
candidate date column present in a returned record holds a locally parsed
timestamp cell (`CellVal.tstamp`, NaT = `none` when unparseable), never the
raw value. -/
theorem claim_C10 (R : Remote) (p : String → Option Int) (sd : Int) (ss : String)
    (ck : Nat) (cf : Option String) (mp : Int) (fuel : Nat) (out : FetchOut)
    (h : fetch_api R p sd ss ck cf mp fuel = some out) :
    (∀ s, out.sv = some s → ∀ rows2, out.result = Except.ok rows2 →
       ∀ r ∈ rows2, ∃ pg rr, (pg = s.probe ∨ pg ∈ s.frames) ∧ rr ∈ pg ∧
         r = padRecord (unionKeys pg) rr ∧
         (∀ k v, lookupRaw rr k = some v → lookupCell r k = some (CellVal.raw v))) ∧
    (∀ f, out.fb = some f → ∀ rows2, out.result = Except.ok rows2 →
       ∀ r ∈ rows2, ∀ c ∈ out.dateCols, ∀ cell, lookupCell r c = some cell →
         ∃ t, cell = CellVal.tstamp t) := by
  constructor
  · intro s hsv rows2 hres r hr
    obtain ⟨_, hres2, _⟩ := fetch_sv_spec h hsv
    rw [hres] at hres2
    have hrows2 : rows2 = svRows s := by
      cases hsr : s.result with
      | ok u => rw [hsr] at hres2; exact Option.some.inj (by simpa using hres2)
      | error e => rw [hsr] at hres2; cases hres2
    subst hrows2
    have hpad : ∃ pg rr, (pg = s.probe ∨ pg ∈ s.frames) ∧ rr ∈ pg ∧
        r = padRecord (unionKeys pg) rr := by
      cases List.mem_append.mp hr with
      | inl hl =>
        simp only [pagePad, List.mem_map] at hl
        obtain ⟨rr, hrr, rfl⟩ := hl
        exact ⟨s.probe, rr, Or.inl rfl, hrr, rfl⟩
      | inr hrr =>
        obtain ⟨l, hl, hrl⟩ := List.mem_flatten.mp hrr
        obtain ⟨pg, hpg, rfl⟩ := List.mem_map.mp hl
        simp only [pagePad, List.mem_map] at hrl
        obtain ⟨rr, hrr2, rfl⟩ := hrl
        exact ⟨pg, rr, Or.inr hpg, hrr2, rfl⟩
    obtain ⟨pg, rr, hpg, hrr, hreq⟩ := hpad
    refine ⟨pg, rr, hpg, hrr, hreq, ?_⟩
    intro k v hkv
    have hk : k ∈ unionKeys pg := mem_unionKeys_of_mem hrr (mem_of_lookupRaw hkv)
    rw [hreq]
    exact lookupRaw_lookupCell_padRecord hk hkv
  · intro f hfb rows2 hres r hr c hc cell hcell
    obtain ⟨hpager, hres2, _⟩ := fetch_fb_spec h hfb
    simp only [fallbackPager] at hpager
    obtain ⟨hkept, hflat⟩ :=
      fallback_scan_kept R p sd out.dateCols _ ck mp _ _ _ _ _ _ _ hpager (by simp)
    have hrows2 : rows2 = f.kept.flatten := hflat rows2 (by rw [← hres2]; exact hres)
    subst hrows2
    obtain ⟨fr, hfr, hrfr⟩ := List.mem_flatten.mp hr
    obtain ⟨_, pg, _, rr, _, hreq⟩ := hkept fr hfr r hrfr
    rw [hreq, lookupCell_parseRec] at hcell
    cases hpc : lookupCell (padRecord (unionKeys pg) rr) c with
    | none => rw [hpc] at hcell; cases hcell
    | some cv =>
      rw [hpc] at hcell
      have : cell = if c ∈ out.dateCols then parseCell p cv else cv := by
        simpa using hcell.symm
      rw [this, if_pos hc]
      exact parseCell_tstamp p cv

/-- Witness for C10: the server part at a concrete server-mode fetch and
the fallback part at a concrete fallback-mode fetch, both non-vacuous. -/
theorem claim_C10_witness :
    (∃ out s rows2,
      fetch_api demoC4 demoParse 100 "S" 2 none 30 9 = some out ∧
      out.sv = some s ∧ out.result = Except.ok rows2 ∧ rows2 ≠ [] ∧
      ∀ r ∈ rows2, ∃ pg rr, (pg = s.probe ∨ pg ∈ s.frames) ∧ rr ∈ pg ∧
        r = padRecord (unionKeys pg) rr ∧
        (∀ k v, lookupRaw rr k = some v → lookupCell r k = some (CellVal.raw v))) ∧
    (∃ out f rows2,
      fetch_api demoC2 demoParse 100 "S" 2 none 30 9 = some out ∧
      out.fb = some f ∧ out.result = Except.ok rows2 ∧ rows2 ≠ [] ∧
      ∀ r ∈ rows2, ∀ c ∈ out.dateCols, ∀ cell, lookupCell r c = some cell →
        ∃ t, cell = CellVal.tstamp t) := by
  constructor
  · have h := (claim_C10 demoC4 demoParse 100 "S" 2 none 30 9 _ rfl).1 _ rfl _ rfl
    exact ⟨_, _, _, rfl, rfl, rfl, by decide, h⟩
  · have h := (claim_C10 demoC2 demoParse 100 "S" 2 none 30 9 _ rfl).2 _ rfl _ rfl
    exact ⟨_, _, _, rfl, rfl, rfl, by decide, h⟩

/-- C4: a successful server-filtered fetch returns exactly the ordered
concatenation of the probe page and the appended loop pages; the row count
is the sum of all received page lengths; the loop's requests re-use the
negotiated filter and ordering with a full-size chunk, each offset advanced
by the length of the previous page (starting after the probe page); every
received page except the last is at least chunk-sized, and pagination stops
exactly at the first page shorter than the chunk (possibly empty). -/
theorem claim_C4 (R : Remote) (p : String → Option Int) (sd : Int) (ss : String)
    (ck : Nat) (cf : Option String) (mp : Int) (fuel : Nat) (out : FetchOut) (s : SvOut)
    (h : fetch_api R p sd ss ck cf mp fuel = some out)
    (hsv : out.sv = some s)
    (hok : s.result = Except.ok ())
    (hck : 0 < ck) :
    out.result = Except.ok (svRows s) ∧
    (svRows s).length = s.probe.length + (s.received.map List.length).sum ∧
    s.log = (svOffsets s.probe.length s.received).map
      (fun off => svReq s.wWhere s.wOrder ck off) ∧
    s.received ≠ [] ∧
    (∀ pg ∈ s.received.dropLast, ck ≤ pg.length) ∧
    (∃ lastPg, s.received.getLast? = some lastPg ∧ lastPg.length < ck) := by
  obtain ⟨hpager, hres, _⟩ := fetch_sv_spec h hsv
  simp only [serverPager] at hpager
  obtain ⟨ext, extF, h1, h2, h3, h4, h5, h6, h7, _, _, _⟩ :=
    server_scan_ok R s.wWhere s.wOrder ck s.probe hck _ _ _ _ _ _ hpager hok
  have hrecv : s.received = ext := by simpa using h1
  have hframes : s.frames = extF := by simpa using h2
  have hlog : s.log = (svOffsets s.probe.length ext).map
      (fun off => svReq s.wWhere s.wOrder ck off) := by simpa using h4
  refine ⟨?_, ?_, ?_, ?_, ?_, ?_⟩
  · rw [hres, hok]
  · have hsum : ((s.frames.map pagePad).flatten).length = (s.received.map List.length).sum := by
      rw [List.length_flatten, List.map_map]
      have hcomp : (List.length ∘ pagePad) = fun pg : List RawRecord => pg.length :=
        funext (fun pg => by simp [pagePad])
      rw [hcomp, hframes, hrecv]
      have hlen := congrArg List.length h3
      rw [List.length_flatten, List.length_flatten] at hlen
      exact hlen
    simp [svRows, List.length_append, pagePad, hsum]
  · rw [hrecv]
    exact hlog
  · rw [hrecv]
    exact h5
  · rw [hrecv]
    exact h6
  · rw [hrecv]
    exact h7

/-- Witness for C4 at a concrete remote: probe page of two rows, one full
page, one short page. -/
theorem claim_C4_witness :
    ∃ out s,
      fetch_api demoC4 demoParse 100 "S" 2 none 30 9 = some out ∧
      out.sv = some s ∧ s.result = Except.ok () ∧ (0 : Nat) < 2 ∧
      out.result = Except.ok (svRows s) ∧
      (svRows s).length = s.probe.length + (s.received.map List.length).sum ∧
      s.log = (svOffsets s.probe.length s.received).map
        (fun off => svReq s.wWhere s.wOrder 2 off) ∧
      s.received ≠ [] ∧
      (∀ pg ∈ s.received.dropLast, 2 ≤ pg.length) ∧
      (∃ lastPg, s.received.getLast? = some lastPg ∧ lastPg.length < 2) := by
  have h := claim_C4 demoC4 demoParse 100 "S" 2 none 30 9 _ _ rfl rfl rfl (by decide)
  exact ⟨_, _, rfl, rfl, rfl, by decide, h⟩

/-- C7: during negotiation, for each candidate in priority order the
cast-comparison probe is attempted exactly when the raw-comparison probe
failed with a message matched as a type mismatch (first conjunct, over the
attempt trace); when negotiation ends with no working filter, every
candidate was attempted — no probe failure aborts the negotiation (second
conjunct); and a candidate whose raw probe fails with a non-mismatch error,
or whose probes both fail, contributes nothing: negotiation's outcome is
that of the remaining candidates (third conjunct). -/
theorem claim_C7 (R : Remote) (ss : String) (ck : Nat) (cands : List String) :
    (∀ a ∈ (negotiate R ss ck cands).trace,
       (a.castTried = true ↔ ∃ m, a.rawErr = some m ∧ typeMismatchMsg m = true)) ∧
    ((negotiate R ss ck cands).found = none →
       (negotiate R ss ck cands).trace.map (fun a => a.cand) = cands) ∧
    (∀ dc rest s b, cands = dc :: rest →
       R (probeReq (rawWhere dc ss) dc (min 5 ck)) = RemoteResp.err s b →
       (typeMismatchMsg (httpExitMsg s
            (reqUrl (probeReq (rawWhere dc ss) dc (min 5 ck))) b) = false →
          (negotiate R ss ck cands).found = (negotiate R ss ck rest).found) ∧
       (∀ s2 b2,
          R (probeReq (rawWhere (castCol dc) ss) (castCol dc) (min 5 ck)) =
            RemoteResp.err s2 b2 →
          (negotiate R ss ck cands).found = (negotiate R ss ck rest).found)) := by
  refine ⟨(negotiate_trace R ss ck cands).1, (negotiate_trace R ss ck cands).2, ?_⟩
  intro dc rest s b hc hraw
  subst hc
  exact negotiate_continue R ss ck dc rest s b hraw

/-- Witness for C7 at a concrete remote whose raw probe fails with a
type-mismatch body and whose cast probe fails with an unrelated error. -/
theorem claim_C7_witness :
    ((negotiate demoC7 "S" 2 ["created_date"]).trace.map (fun a => a.cand) =
      ["created_date"]) ∧
    (∀ a ∈ (negotiate demoC7 "S" 2 ["created_date"]).trace,
       (a.castTried = true ↔ ∃ m, a.rawErr = some m ∧ typeMismatchMsg m = true)) ∧
    (negotiate demoC7 "S" 2 ["created_date"]).found =
      (negotiate demoC7 "S" 2 []).found := by
  have h := claim_C7 demoC7 "S" 2 ["created_date"]
  refine ⟨h.2.1 rfl, h.1, ?_⟩
  exact (h.2.2 "created_date" [] 400 "comparison type-mismatch on text column"
    rfl rfl).2 400 "still bad" rfl

/-- C6 (amended): a non-success HTTP status is never the object of a retry,
but its effect depends on the stage.  At the schema probe it is fatal at
once: the fetch stops with an HTTP error carrying status code and URL,
having issued only that probe.  A failed negotiation probe produces the full
diagnostic — status code, request URL, and the response body truncated to
800 characters — but that failure is caught: with a non-type-mismatch
message, negotiation moves to the next candidate instead of aborting the
fetch (see the counterexample, where the whole fetch succeeds despite a
failed probe).  During fallback or server-side pagination a non-success
status is fatal: the failing request is the last ever issued, every earlier
request succeeded, and the failing request was never issued before (no
retry). -/
theorem claim_C6 (R : Remote) (p : String → Option Int) (sd : Int) (ss : String)
    (ck : Nat) (cf : Option String) (mp : Int) (fuel : Nat) :
    (∀ s b, R sampleReq = RemoteResp.err s b →
       fetch_api R p sd ss ck cf mp fuel =
         some { log := [sampleReq], cols := [], dateCols := [], attempts := [],
                sv := none, fb := none,
                result := Except.error (FetchErr.httpError s (reqUrl sampleReq)) }) ∧
    (∀ w oc c2 s b, R (probeReq w oc c2) = RemoteResp.err s b →
       _try_page R w oc c2 =
         (probeReq w oc c2,
          Except.error (httpExitMsg s (reqUrl (probeReq w oc c2)) b))) ∧
    (∀ dc rest s b, R (probeReq (rawWhere dc ss) dc (min 5 ck)) = RemoteResp.err s b →
       typeMismatchMsg (httpExitMsg s
           (reqUrl (probeReq (rawWhere dc ss) dc (min 5 ck))) b) = false →
       (negotiate R ss ck (dc :: rest)).found = (negotiate R ss ck rest).found) ∧
    (∀ out f e, fetch_api R p sd ss ck cf mp fuel = some out → out.fb = some f →
       out.result = Except.error e →
       ∃ q s b, f.log.getLast? = some q ∧ R q = RemoteResp.err s b ∧
         e = FetchErr.httpError s (reqUrl q) ∧
         (∀ r ∈ f.log.dropLast, ∃ rs, R r = RemoteResp.ok rs) ∧
         q ∉ f.log.dropLast) ∧
    (∀ out s2 e, fetch_api R p sd ss ck cf mp fuel = some out → out.sv = some s2 →
       out.result = Except.error e →
       ∃ q st b, s2.log.getLast? = some q ∧ R q = RemoteResp.err st b ∧
         e = FetchErr.httpError st (reqUrl q) ∧
         (∀ r ∈ s2.log.dropLast, ∃ rs, R r = RemoteResp.ok rs) ∧
         q ∉ s2.log.dropLast) := by
  refine ⟨?_, ?_, ?_, ?_, ?_⟩
  · intro s b h
    exact fetch_api_sample_err h
  · intro w oc c2 s b h
    simp [_try_page, h]
  · intro dc rest s b hraw htm
    exact (negotiate_continue R ss ck dc rest s b hraw).1 htm
  · intro out f e h hfb hres
    obtain ⟨hpager, hres2, _⟩ := fetch_fb_spec h hfb
    simp only [fallbackPager] at hpager
    have hfres : f.result = Except.error e := by rw [← hres2]; exact hres
    obtain ⟨q, s, b, hlast, herr, he, hdrop⟩ :=
      fallback_scan_err R p sd out.dateCols _ ck mp _ _ _ _ _ _ _ _
        hpager (by simp) hfres
    refine ⟨q, s, b, hlast, herr, he, hdrop, ?_⟩
    intro hmem
    obtain ⟨rs, hok⟩ := hdrop q hmem
    rw [herr] at hok
    cases hok
  · intro out s2 e h hsv hres
    obtain ⟨hpager, hres2, _⟩ := fetch_sv_spec h hsv
    simp only [serverPager] at hpager
    have hsres : s2.result = Except.error e := by
      rw [hres] at hres2
      cases hsr : s2.result with
      | ok u =>
        rw [hsr] at hres2
        cases hres2
      | error e2 =>
        rw [hsr] at hres2
        have : e = e2 := by simpa using hres2
        rw [this]
    obtain ⟨q, st, b, hlast, herr, he, hdrop⟩ :=
      server_scan_err R s2.wWhere s2.wOrder ck s2.probe _ _ _ _ _ _ _
        hpager (by simp) hsres
    refine ⟨q, st, b, hlast, herr, he, hdrop, ?_⟩
    intro hmem
    obtain ⟨rs, hok⟩ := hdrop q hmem
    rw [herr] at hok
    cases hok

/-- Witness for C6: each stage behaviour exercised at a concrete remote —
fatal schema probe, the full `_try_page` diagnostic, a caught negotiation
failure, a fatal fallback page request, and a fatal server page request. -/
theorem claim_C6_witness :
    (fetch_api demoC6a demoParse 100 "S" 2 none 30 9 =
      some { log := [sampleReq], cols := [], dateCols := [], attempts := [],
             sv := none, fb := none,
             result := Except.error (FetchErr.httpError 503 (reqUrl sampleReq)) }) ∧
    (_try_page demoC6a "w" "o" 3 =
      (probeReq "w" "o" 3,
       Except.error (httpExitMsg 503 (reqUrl (probeReq "w" "o" 3)) "oops"))) ∧
    ((negotiate demoC1 "S" 2 ["created_date"]).found =
      (negotiate demoC1 "S" 2 []).found) ∧
    (∃ out f e q s b,
      fetch_api demoC6b demoParse 100 "S" 2 none 30 9 = some out ∧
      out.fb = some f ∧ out.result = Except.error e ∧
      f.log.getLast? = some q ∧ demoC6b q = RemoteResp.err s b ∧
      e = FetchErr.httpError s (reqUrl q) ∧
      (∀ r ∈ f.log.dropLast, ∃ rs, demoC6b r = RemoteResp.ok rs) ∧
      q ∉ f.log.dropLast) ∧
    (∃ out s2 e q st b,
      fetch_api demoC6c demoParse 100 "S" 2 none 30 9 = some out ∧
      out.sv = some s2 ∧ out.result = Except.error e ∧
      s2.log.getLast? = some q ∧ demoC6c q = RemoteResp.err st b ∧
      e = FetchErr.httpError st (reqUrl q) ∧
      (∀ r ∈ s2.log.dropLast, ∃ rs, demoC6c r = RemoteResp.ok rs) ∧
      q ∉ s2.log.dropLast) := by
  refine ⟨?_, ?_, ?_, ?_, ?_⟩
  · exact (claim_C6 demoC6a demoParse 100 "S" 2 none 30 9).1 503 "oops" rfl
  · exact (claim_C6 demoC6a demoParse 100 "S" 2 none 30 9).2.1 "w" "o" 3 503 "oops" rfl
  · exact (claim_C6 demoC1 demoParse 100 "S" 2 none 30 9).2.2.1 "created_date" []
      400 "no such column" rfl rfl
  · obtain ⟨q, s, b, h1, h2, h3, h4, h5⟩ :=
      (claim_C6 demoC6b demoParse 100 "S" 2 none 30 9).2.2.2.1 _ _ _ rfl rfl rfl
    exact ⟨_, _, _, q, s, b, rfl, rfl, rfl, h1, h2, h3, h4, h5⟩
  · obtain ⟨q, st, b, h1, h2, h3, h4, h5⟩ :=
      (claim_C6 demoC6c demoParse 100 "S" 2 none 30 9).2.2.2.2 _ _ _ rfl rfl rfl
    exact ⟨_, _, _, q, st, b, rfl, rfl, rfl, h1, h2, h3, h4, h5⟩

/-- Counterexample to C6 as frozen: a fetch in which a probe receives a
non-success HTTP status (400) and yet the whole fetch succeeds with data —
a non-success status at the negotiation stage is caught, not fatal. -/
theorem claim_C6_counterexample :
    demoC6 (probeReq (rawWhere "created_date" "S") "created_date" 2) =
      RemoteResp.err 400 "boom" ∧
    (fetch_api demoC6 demoParse 100 "S" 2 none 30 9).map (fun o => o.result) =
      some (Except.ok [[("created_date", CellVal.tstamp (some 150))]]) :=
  ⟨rfl, rfl⟩
